import Mathlib

/-!
Shallow embedding of the word-prediction service in
`src/how-ai-works/src/how_ai_works/api.py`.

Strings are modelled as `List Char`.  The pretrained model and tokenizer
are opaque external capabilities (per the specification they are consumed
through the contract encode / forward+topk / decode), so they enter the
embedding as explicit function parameters; the Python code itself
(validator, token filter, lifecycle state transitions, endpoint handlers)
is translated directly.  Case-insensitive regex search is modelled by
ASCII lowercasing, and `\w` by ASCII word characters, matching the
ASCII-only inputs the denylist patterns consist of.
-/

namespace HowAIWorks

/-- Characters removed by `re.sub(r'[\x00-\x1f\x7f-\x9f]', '', v)`
(api.py line 138 and line 516). -/
def isControlChar (c : Char) : Bool :=
  c.toNat ≤ 0x1f || (0x7f ≤ c.toNat && c.toNat ≤ 0x9f)

/-- Python's whitespace class: the characters matched by `\s` in a `str`
pattern and removed by `str.strip()`. -/
def pyIsSpace (c : Char) : Bool :=
  c == ' ' || c == '\t' || c == '\n' || c.toNat == 0x0b || c.toNat == 0x0c ||
  c == '\r' || (0x1c ≤ c.toNat && c.toNat ≤ 0x1f) || c.toNat == 0x85 ||
  c.toNat == 0xa0 || c.toNat == 0x1680 ||
  (0x2000 ≤ c.toNat && c.toNat ≤ 0x200a) ||
  c.toNat == 0x2028 || c.toNat == 0x2029 || c.toNat == 0x202f ||
  c.toNat == 0x205f || c.toNat == 0x3000

/-- `re.sub(r'[\x00-\x1f\x7f-\x9f]', '', s)`: drop every control character. -/
def stripControls (s : List Char) : List Char :=
  s.filter (fun c => !isControlChar c)

/-- Worker for `re.sub(r'\s+', ' ', s)`: the flag records whether the
previous character belonged to a whitespace run already replaced by `' '`. -/
def collapseAux : Bool → List Char → List Char
  | _, [] => []
  | prevWs, c :: rest =>
    if pyIsSpace c then
      match prevWs with
      | true => collapseAux true rest
      | false => ' ' :: collapseAux true rest
    else c :: collapseAux false rest

/-- `re.sub(r'\s+', ' ', s)`: collapse every whitespace run to one space. -/
def collapseWs (s : List Char) : List Char :=
  collapseAux false s

/-- Python `str.strip()`: remove leading and trailing whitespace. -/
def pyStrip (s : List Char) : List Char :=
  ((s.dropWhile pyIsSpace).reverse.dropWhile pyIsSpace).reverse

/-- The cleaning phase of `validate_input_phrase` (api.py lines 138-139):
strip control characters, collapse whitespace, trim. -/
def sanitizeClean (v : List Char) : List Char :=
  pyStrip (collapseWs (stripControls v))

/-- The first character, if any, is not whitespace. -/
def headNotSpace : List Char → Bool
  | [] => true
  | c :: _ => !pyIsSpace c

/-- The last character, if any, is not whitespace. -/
def lastNotSpace (s : List Char) : Bool :=
  headNotSpace s.reverse

/-- Whitespace is normalized: every whitespace character is a plain space
and is not followed by another whitespace character. -/
def wellSpaced : List Char → Bool
  | [] => true
  | c :: rest => (!pyIsSpace c || (c == ' ' && headNotSpace rest)) && wellSpaced rest

/-- No character is an ASCII control character (0x00-0x1F, 0x7F-0x9F). -/
def noControl (s : List Char) : Bool :=
  s.all (fun c => !isControlChar c)

/-- Does the pattern match at the head of the text (character by character)? -/
def matchesAt : List Char → List Char → Bool
  | [], _ => true
  | _ :: _, [] => false
  | p :: ps, c :: cs => p == c && matchesAt ps cs

/-- `re.search` skeleton: does `p` accept some suffix of the text? -/
def searchAux (p : List Char → Bool) : List Char → Bool
  | [] => p []
  | c :: rest => p (c :: rest) || searchAux p rest

/-- Unanchored substring search, as `re.search` performs for a literal
pattern. -/
def isSubstrOf (pat s : List Char) : Bool :=
  searchAux (fun t => matchesAt pat t) s

/-- ASCII lowercasing, modelling `re.IGNORECASE` against the all-ASCII
denylist patterns. -/
def toLowerStr (s : List Char) : List Char :=
  s.map Char.toLower

def scriptTagPat : List Char := "<script".toList

def javascriptPat : List Char := "javascript:".toList

def dataPat : List Char := "data:".toList

def vbscriptPat : List Char := "vbscript:".toList

def evalPat : List Char := "eval".toList

def expressionPat : List Char := "expression".toList

/-- `<script[^>]*>` matches at this position: the literal `<script`
followed (after any non-`>` characters) by a `>`. -/
def scriptTagAt (t : List Char) : Bool :=
  matchesAt scriptTagPat t && (t.drop scriptTagPat.length).contains '>'

/-- ASCII word characters, modelling `\w`. -/
def wordChar (c : Char) : Bool :=
  c.isAlpha || c.isDigit || c == '_'

/-- `on\w+\s*=` matches at this position. -/
def onHandlerAt : List Char → Bool
  | 'o' :: 'n' :: rest =>
    decide (1 ≤ (rest.takeWhile wordChar).length) &&
    (match (rest.dropWhile wordChar).dropWhile pyIsSpace with
     | '=' :: _ => true
     | _ => false)
  | _ => false

/-- `kw\s*\(` matches at this position (used for `eval\s*\(` and
`expression\s*\(`). -/
def callPatternAt (kw : List Char) (t : List Char) : Bool :=
  matchesAt kw t &&
  (match (t.drop kw.length).dropWhile pyIsSpace with
   | '(' :: _ => true
   | _ => false)

/-- The `malicious_patterns` loop of `validate_input_phrase`
(api.py lines 148-160): does any of the seven case-insensitive patterns
match somewhere in the text? -/
def hasMaliciousPattern (s : List Char) : Bool :=
  searchAux scriptTagAt (toLowerStr s) ||
  isSubstrOf javascriptPat (toLowerStr s) ||
  isSubstrOf dataPat (toLowerStr s) ||
  isSubstrOf vbscriptPat (toLowerStr s) ||
  searchAux onHandlerAt (toLowerStr s) ||
  searchAux (callPatternAt evalPat) (toLowerStr s) ||
  searchAux (callPatternAt expressionPat) (toLowerStr s)

/-- Four consecutive copies of the length-`n` block starting here, with a
block of non-newline characters (`.` does not match `\n`) of length at
least 10; the building block of `(.{10,})\1{3,}`. -/
def repeatedBlockAt (t : List Char) (n : Nat) : Bool :=
  decide (10 ≤ n) && decide (4 * n ≤ t.length) &&
  (t.take n).all (fun c => c != '\n') &&
  ((t.drop n).take n == t.take n) &&
  ((t.drop (2 * n)).take n == t.take n) &&
  ((t.drop (3 * n)).take n == t.take n)

/-- `re.search(r'(.{10,})\1{3,}', s)`: some position starts four
consecutive copies of a block of length at least 10. -/
def hasExcessiveRepetition (s : List Char) : Bool :=
  searchAux (fun t => (List.range (t.length + 1)).any (fun n => repeatedBlockAt t n)) s

/-- The distinct `ValueError` messages raised by `validate_input_phrase`. -/
inductive ValidationError where
  | emptyInput
  | emptyAfterSanitization
  | tooLong
  | maliciousContent
  | excessiveRepetition
deriving DecidableEq, Repr

/-- `validate_input_phrase` (api.py lines 131-166): the sanitizer.
Returns the sanitized phrase, or the first `ValueError` raised. -/
def validate_input_phrase (v : List Char) : Except ValidationError (List Char) :=
  if v.isEmpty || v.all pyIsSpace then .error .emptyInput
  else
    let sanitized := sanitizeClean v
    if sanitized.length == 0 then .error .emptyAfterSanitization
    else if 200 < sanitized.length then .error .tooLong
    else if hasMaliciousPattern sanitized then .error .maliciousContent
    else if hasExcessiveRepetition sanitized then .error .excessiveRepetition
    else .ok sanitized

/-! ## Model lifecycle (api.py lines 111-115, 226-296, 337-341, 414-441) -/

/-- The values of the `model_loading_status` global. -/
inductive LoadingStatus where
  | not_loaded
  | loading
  | loaded
  | error
deriving DecidableEq, Repr

/-- The process-wide globals `model`, `tokenizer`, `model_loading_status`,
`model_name` (api.py lines 111-115).  Handles are left as bare numbers:
the loaded artifacts themselves are external capabilities. -/
structure ModelState where
  model : Option Nat
  tokenizer : Option Nat
  model_loading_status : LoadingStatus
  model_name : Option String
deriving DecidableEq, Repr

/-- The initial global state: nothing loaded. -/
def initialModelState : ModelState :=
  ⟨none, none, .not_loaded, none⟩

/-- One load attempt's external circumstances: the resolved model name
(`get_model_name()`) and the outcomes of the two `from_pretrained` calls
(`none` models the call raising). -/
structure LoadEnv where
  name : String
  tokenizerResult : Option Nat
  modelResult : Option Nat

/-- `raise HTTPException(status_code=..., detail=...)`, as a value. -/
structure HTTPError where
  status_code : Nat
  detail : String
deriving DecidableEq, Repr

def loadFailureDetail : String := "Failed to initialize AI model"

/-- `load_model_and_tokenizer` (api.py lines 226-296) as a state
transition.  The tokenizer global is assigned before the model load is
attempted, exactly as in the source; a raised `HTTPException` is returned
as `some` error alongside the state the globals were left in. -/
def load_model_and_tokenizer (env : LoadEnv) (st : ModelState) :
    ModelState × Option HTTPError :=
  if st.model.isNone || st.tokenizer.isNone then
    let st1 : ModelState :=
      { st with model_loading_status := .loading, model_name := some env.name }
    match env.tokenizerResult with
    | none =>
      ({ st1 with model_loading_status := .error }, some ⟨500, loadFailureDetail⟩)
    | some tok =>
      let st2 : ModelState := { st1 with tokenizer := some tok }
      match env.modelResult with
      | none =>
        ({ st2 with model_loading_status := .error }, some ⟨500, loadFailureDetail⟩)
      | some m =>
        ({ st2 with model := some m, model_loading_status := .loaded }, none)
  else (st, none)

/-- `ensure_model_loaded` (api.py lines 337-341). -/
def ensure_model_loaded (env : LoadEnv) (st : ModelState) :
    ModelState × Option HTTPError :=
  if st.model.isNone || st.tokenizer.isNone then load_model_and_tokenizer env st
  else (st, none)

/-- The four response payloads of `POST /api/model/load`. -/
inductive LoadResponse where
  | already_loading
  | already_loaded
  | success
  | error_payload (message : String)
deriving DecidableEq, Repr

/-- The `POST /api/model/load` handler `load_model` (api.py lines
414-441).  The result is wrapped in `Except HTTPError` so that an
exception escaping the handler would be visible as `.error`; the
handler's `except HTTPException` clause converts the raised error into
the 200-wrapped error payload. -/
def load_model (env : LoadEnv) (st : ModelState) :
    ModelState × Except HTTPError LoadResponse :=
  if st.model_loading_status == .loading then (st, .ok .already_loading)
  else if st.model_loading_status == .loaded then (st, .ok .already_loaded)
  else
    match load_model_and_tokenizer env st with
    | (st2, none) => (st2, .ok .success)
    | (st2, some e) =>
      (st2, .ok (.error_payload ("Failed to load model: " ++ e.detail)))

/-! ## Prediction engine (api.py lines 453-565) -/

/-- One formatted prediction (`PredictionResult`, api.py lines 175-178);
the softmax probability is modelled as a rational. -/
structure PredictionResult where
  word : List Char
  probability : Rat
  token_id : Nat
deriving DecidableEq, Repr

/-- The response body (`PredictionResponse`, api.py lines 180-183). -/
structure PredictionResponse where
  predictions : List PredictionResult
  input_phrase : List Char
  complete_sentence : List Char
deriving DecidableEq, Repr

/-- One entry of the `torch.topk` result: a token id with its softmax
probability. -/
structure Candidate where
  token_id : Nat
  probability : Rat
deriving DecidableEq, Repr

/-- The punctuation/symbol denylist `[<>{}[\]\\|`~@#$%^&*+=]`
(api.py line 523). -/
def punctDenylist : List Char := "<>\x7b\x7d[]\\|`~@#$%^&*+=".toList

/-- `re.search(r'^[<>{}[\]\\|`~@#$%^&*+=]+$', w)`: the token consists
solely of denylisted characters (and is nonempty). -/
def punctOnlyToken (w : List Char) : Bool :=
  !w.isEmpty && w.all (fun c => punctDenylist.contains c)

/-- `re.search(r'^\.{2,}\s*$', w)`: two or more leading dots followed
only by whitespace. -/
def multiDotToken (w : List Char) : Bool :=
  decide (2 ≤ (w.takeWhile (fun c => c == '.')).length) &&
  (w.dropWhile (fun c => c == '.')).all pyIsSpace

/-- `re.search(r'^\s*\.\s*\.\s*\.?\s*$', w)`: only dots and whitespace,
with exactly two or three dots. -/
def spacedEllipsisToken (w : List Char) : Bool :=
  w.all (fun c => c == '.' || pyIsSpace c) &&
  (w.count '.' == 2 || w.count '.' == 3)

/-- `re.search(r'^(\s*\.\s*){2,}$', w)`: only dots and whitespace, with
at least two dots. -/
def repSpacedDotsToken (w : List Char) : Bool :=
  w.all (fun c => c == '.' || pyIsSpace c) && decide (2 ≤ w.count '.')

def tripleDotLiteral : List Char := "...".toList

def unicodeEllipsis : List Char := "…".toList

/-- The `is_valid_token` condition (api.py lines 519-529). -/
def is_valid_token (w : List Char) : Bool :=
  !w.isEmpty && decide (0 < w.length) && decide (w.length ≤ 50) &&
  !punctOnlyToken w && !multiDotToken w && !spacedEllipsisToken w &&
  !repSpacedDotsToken w &&
  !(pyStrip w == tripleDotLiteral) && !(pyStrip w == unicodeEllipsis)

/-- The per-candidate processing of the formatting loop (api.py lines
510-537): decode (a decode failure yields `none` and the candidate is
skipped), strip, remove control characters, then keep the candidate only
if `is_valid_token` accepts the word. -/
def decodeCandidate (decode : Nat → Option (List Char)) (c : Candidate) :
    Option PredictionResult :=
  match decode c.token_id with
  | none => none
  | some raw =>
    let w := stripControls (pyStrip raw)
    if is_valid_token w then some ⟨w, c.probability, c.token_id⟩ else none

/-- The whole formatting loop over the top-k candidates. -/
def formatPredictions (decode : Nat → Option (List Char))
    (cands : List Candidate) : List PredictionResult :=
  cands.filterMap (decodeCandidate decode)

/-- The request body after pydantic validation: `input_phrase` is already
the sanitized phrase. -/
structure PredictPayload where
  input_phrase : List Char
  top_k_tokens : Nat

/-- The external model capability used by the predict handler:
`encode` is `tokenizer.encode` (`none` models the call raising),
`topk` is forward pass + softmax + `torch.topk` (`none` models inference
raising), `decode` is `tokenizer.decode` (`none` models it raising for
that token). -/
structure InferenceEnv where
  encode : List Char → Option (List Nat)
  topk : List Nat → Nat → Option (List Candidate)
  decode : Nat → Option (List Char)

def tokenizationFailedDetail : String := "Failed to process input text"

def inputTooLongDetail : String := "Input phrase is too long"

def inferenceFailedDetail : String := "AI model processing failed"

def noValidDetail : String := "No valid word predictions available"

/-- The body of `predict_next_word` after the model-loaded gate
(api.py lines 468-558). -/
def predict_next_word (env : InferenceEnv) (payload : PredictPayload) :
    Except HTTPError PredictionResponse :=
  let input_phrase := pyStrip payload.input_phrase
  match env.encode input_phrase with
  | none => .error ⟨400, tokenizationFailedDetail⟩
  | some input_ids =>
    if 100 < input_ids.length then .error ⟨400, inputTooLongDetail⟩
    else
      match env.topk input_ids payload.top_k_tokens with
      | none => .error ⟨500, inferenceFailedDetail⟩
      | some cands =>
        let predictions := formatPredictions env.decode cands
        if h : predictions = [] then .error ⟨500, noValidDetail⟩
        else
          .ok { predictions := predictions,
                input_phrase := input_phrase,
                complete_sentence :=
                  pyStrip (input_phrase ++ ' ' :: (predictions.head h).word) }

/-- A concrete inference environment exercising the prediction engine:
encoding yields five token ids, the top-3 candidates are fixed with
descending probabilities, and token 7 decodes to an ellipsis (which the
token filter must drop). -/
def testEnv : InferenceEnv where
  encode := fun _ => some [1, 2, 3, 4, 5]
  topk := fun _ _ => some [⟨5, (1 : Rat)/2⟩, ⟨7, (1 : Rat)/4⟩, ⟨9, (1 : Rat)/8⟩]
  decode := fun i =>
    if i == 5 then some (" Paris".toList)
    else if i == 9 then some (" the".toList)
    else some ("...".toList)

def testPayload : PredictPayload := ⟨"The capital of France is".toList, 3⟩

/-- The response `predict_next_word testEnv testPayload` produces. -/
def testResp : PredictionResponse :=
  { predictions := [⟨"Paris".toList, (1 : Rat)/2, 5⟩, ⟨"the".toList, (1 : Rat)/8, 9⟩],
    input_phrase := "The capital of France is".toList,
    complete_sentence := "The capital of France is Paris".toList }

/-! ## Lemmas about the cleaning phase of the sanitizer -/

theorem mem_collapseAux {c : Char} :
    ∀ {t : List Char} {b : Bool}, c ∈ collapseAux b t → c = ' ' ∨ c ∈ t := by
  intro t
  induction t with
  | nil => intro b h; simp [collapseAux] at h
  | cons d rest ih =>
    intro b h
    by_cases hd : pyIsSpace d
    · cases b with
      | true =>
        simp only [collapseAux, if_pos hd] at h
        rcases ih h with h' | h'
        · exact Or.inl h'
        · exact Or.inr (List.mem_cons_of_mem d h')
      | false =>
        simp only [collapseAux, if_pos hd] at h
        rcases List.mem_cons.mp h with h' | h'
        · exact Or.inl h'
        · rcases ih h' with h'' | h''
          · exact Or.inl h''
          · exact Or.inr (List.mem_cons_of_mem d h'')
    · simp only [collapseAux, if_neg hd] at h
      rcases List.mem_cons.mp h with h' | h'
      · exact Or.inr (h' ▸ List.mem_cons_self d rest)
      · rcases ih h' with h'' | h''
        · exact Or.inl h''
        · exact Or.inr (List.mem_cons_of_mem d h'')

theorem noControl_collapseAux {t : List Char} {b : Bool} (h : noControl t = true) :
    noControl (collapseAux b t) = true := by
  simp only [noControl, List.all_eq_true] at h ⊢
  intro c hc
  rcases mem_collapseAux hc with h' | h'
  · subst h'; decide
  · exact h c h'

theorem headNotSpace_collapseAux_true :
    ∀ t : List Char, headNotSpace (collapseAux true t) = true := by
  intro t
  induction t with
  | nil => rfl
  | cons d rest ih =>
    by_cases hd : pyIsSpace d
    · simp only [collapseAux, if_pos hd]; exact ih
    · simp only [collapseAux, if_neg hd]; simp [headNotSpace, hd]

theorem wellSpaced_collapseAux :
    ∀ (t : List Char) (b : Bool), wellSpaced (collapseAux b t) = true := by
  intro t
  induction t with
  | nil => intro b; rfl
  | cons d rest ih =>
    intro b
    by_cases hd : pyIsSpace d
    · cases b with
      | true => simp only [collapseAux, if_pos hd]; exact ih true
      | false =>
        simp only [collapseAux, if_pos hd]
        simp only [wellSpaced, Bool.and_eq_true]
        refine ⟨?_, ih true⟩
        simp [headNotSpace_collapseAux_true rest]
    · simp only [collapseAux, if_neg hd]
      simp only [wellSpaced, Bool.and_eq_true]
      refine ⟨?_, ih false⟩
      simp [hd]

theorem wellSpaced_tail {c : Char} {t : List Char}
    (h : wellSpaced (c :: t) = true) : wellSpaced t = true := by
  simp only [wellSpaced, Bool.and_eq_true] at h
  exact h.2

theorem wellSpaced_dropWhile (p : Char → Bool) :
    ∀ {s : List Char}, wellSpaced s = true → wellSpaced (s.dropWhile p) = true := by
  intro s
  induction s with
  | nil => intro h; exact h
  | cons c rest ih =>
    intro h
    rw [List.dropWhile_cons]
    by_cases hc : p c
    · rw [if_pos hc]; exact ih (wellSpaced_tail h)
    · rw [if_neg hc]; exact h

theorem headNotSpace_take {s : List Char} (h : headNotSpace s = true) (n : Nat) :
    headNotSpace (s.take n) = true := by
  cases s with
  | nil => simp [headNotSpace]
  | cons c rest =>
    cases n with
    | zero => rfl
    | succ m => exact h

theorem wellSpaced_take :
    ∀ {s : List Char} (n : Nat), wellSpaced s = true → wellSpaced (s.take n) = true := by
  intro s
  induction s with
  | nil => intro n h; simp [wellSpaced]
  | cons c rest ih =>
    intro n h
    cases n with
    | zero => rfl
    | succ m =>
      simp only [List.take_succ_cons]
      simp only [wellSpaced, Bool.and_eq_true] at h ⊢
      refine ⟨?_, ih m h.2⟩
      rcases Bool.or_eq_true_iff.mp h.1 with h' | h'
      · simp [h']
      · simp only [Bool.and_eq_true] at h'
        simp [h'.1, headNotSpace_take h'.2 m]

theorem headNotSpace_dropWhile (s : List Char) :
    headNotSpace (s.dropWhile pyIsSpace) = true := by
  induction s with
  | nil => rfl
  | cons c rest ih =>
    rw [List.dropWhile_cons]
    by_cases hc : pyIsSpace c
    · rw [if_pos hc]; exact ih
    · rw [if_neg hc]; simp only [headNotSpace]; simp [Bool.not_eq_true'] at hc ⊢; exact hc

theorem trimRight_eq_take (p : Char → Bool) (u : List Char) :
    ∃ n, (u.reverse.dropWhile p).reverse = u.take n := by
  refine ⟨(u.reverse.dropWhile p).reverse.length, ?_⟩
  have h : (u.reverse.dropWhile p).reverse ++ (u.reverse.takeWhile p).reverse = u := by
    rw [← List.reverse_append, List.takeWhile_append_dropWhile, List.reverse_reverse]
  calc (u.reverse.dropWhile p).reverse
      = ((u.reverse.dropWhile p).reverse ++
          (u.reverse.takeWhile p).reverse).take (u.reverse.dropWhile p).reverse.length :=
        (List.take_left _ _).symm
    _ = u.take (u.reverse.dropWhile p).reverse.length := by rw [h]

theorem pyStrip_eq_take (s : List Char) :
    ∃ n, pyStrip s = (s.dropWhile pyIsSpace).take n := by
  unfold pyStrip
  exact trimRight_eq_take pyIsSpace (s.dropWhile pyIsSpace)

theorem dropWhile_pyIsSpace_eq_self {s : List Char} (h : headNotSpace s = true) :
    s.dropWhile pyIsSpace = s := by
  cases s with
  | nil => rfl
  | cons c rest =>
    simp only [headNotSpace, Bool.not_eq_true'] at h
    rw [List.dropWhile_cons, if_neg (by simp [h])]

theorem pyStrip_eq_self {s : List Char} (h1 : headNotSpace s = true)
    (h2 : lastNotSpace s = true) : pyStrip s = s := by
  have h2' : headNotSpace s.reverse = true := h2
  unfold pyStrip
  rw [dropWhile_pyIsSpace_eq_self h1, dropWhile_pyIsSpace_eq_self h2']
  exact List.reverse_reverse s

theorem headNotSpace_pyStrip (s : List Char) : headNotSpace (pyStrip s) = true := by
  obtain ⟨n, hn⟩ := pyStrip_eq_take s
  rw [hn]
  exact headNotSpace_take (headNotSpace_dropWhile s) n

theorem lastNotSpace_pyStrip (s : List Char) : lastNotSpace (pyStrip s) = true := by
  unfold lastNotSpace pyStrip
  rw [List.reverse_reverse]
  exact headNotSpace_dropWhile _

theorem wellSpaced_pyStrip {s : List Char} (h : wellSpaced s = true) :
    wellSpaced (pyStrip s) = true := by
  obtain ⟨n, hn⟩ := pyStrip_eq_take s
  rw [hn]
  exact wellSpaced_take n (wellSpaced_dropWhile pyIsSpace h)

theorem mem_pyStrip {c : Char} {s : List Char} (h : c ∈ pyStrip s) : c ∈ s := by
  obtain ⟨n, hn⟩ := pyStrip_eq_take s
  rw [hn] at h
  exact List.dropWhile_subset pyIsSpace (List.mem_of_mem_take h)

theorem noControl_stripControls (v : List Char) : noControl (stripControls v) = true := by
  simp only [noControl, stripControls, List.all_eq_true]
  intro c hc
  exact (List.mem_filter.mp hc).2

theorem stripControls_eq_self {s : List Char} (h : noControl s = true) :
    stripControls s = s := by
  simp only [noControl, List.all_eq_true] at h
  exact List.filter_eq_self.mpr h

theorem noControl_pyStrip {s : List Char} (h : noControl s = true) :
    noControl (pyStrip s) = true := by
  simp only [noControl, List.all_eq_true] at h ⊢
  intro c hc
  exact h c (mem_pyStrip hc)

theorem collapseAux_eq_self :
    ∀ {s : List Char}, wellSpaced s = true →
      collapseAux false s = s ∧ (headNotSpace s = true → collapseAux true s = s) := by
  intro s
  induction s with
  | nil => intro _; exact ⟨rfl, fun _ => rfl⟩
  | cons c rest ih =>
    intro h
    simp only [wellSpaced, Bool.and_eq_true] at h
    obtain ⟨hc, hrest⟩ := h
    obtain ⟨ihf, iht⟩ := ih hrest
    by_cases hws : pyIsSpace c
    · have hc' : (c == ' ' && headNotSpace rest) = true := by
        rcases Bool.or_eq_true_iff.mp hc with h' | h'
        · simp [hws] at h'
        · exact h'
      simp only [Bool.and_eq_true, beq_iff_eq] at hc'
      obtain ⟨hceq, hhead⟩ := hc'
      constructor
      · simp only [collapseAux, if_pos hws]
        rw [iht hhead, hceq]
      · intro hh
        simp [headNotSpace, hws] at hh
    · constructor
      · simp only [collapseAux, if_neg hws]
        rw [ihf]
      · intro _
        simp only [collapseAux, if_neg hws]
        rw [ihf]

theorem noControl_sanitizeClean (v : List Char) : noControl (sanitizeClean v) = true :=
  noControl_pyStrip (noControl_collapseAux (noControl_stripControls v))

theorem wellSpaced_sanitizeClean (v : List Char) : wellSpaced (sanitizeClean v) = true :=
  wellSpaced_pyStrip (wellSpaced_collapseAux _ false)

theorem headNotSpace_sanitizeClean (v : List Char) :
    headNotSpace (sanitizeClean v) = true :=
  headNotSpace_pyStrip _

theorem lastNotSpace_sanitizeClean (v : List Char) :
    lastNotSpace (sanitizeClean v) = true :=
  lastNotSpace_pyStrip _

theorem sanitizeClean_eq_self {s : List Char} (hnc : noControl s = true)
    (hws : wellSpaced s = true) (hh : headNotSpace s = true)
    (hl : lastNotSpace s = true) : sanitizeClean s = s := by
  unfold sanitizeClean collapseWs
  rw [stripControls_eq_self hnc, (collapseAux_eq_self hws).1, pyStrip_eq_self hh hl]

theorem sanitizeClean_idem (v : List Char) :
    sanitizeClean (sanitizeClean v) = sanitizeClean v :=
  sanitizeClean_eq_self (noControl_sanitizeClean v) (wellSpaced_sanitizeClean v)
    (headNotSpace_sanitizeClean v) (lastNotSpace_sanitizeClean v)

theorem all_pyIsSpace_eq_false {s : List Char} (hne : s ≠ [])
    (hh : headNotSpace s = true) : s.all pyIsSpace = false := by
  cases s with
  | nil => exact absurd rfl hne
  | cons c rest =>
    simp only [headNotSpace, Bool.not_eq_true'] at hh
    simp [List.all_cons, hh]

theorem validate_ok_elim {v s : List Char}
    (h : validate_input_phrase v = .ok s) :
    s = sanitizeClean v ∧ sanitizeClean v ≠ [] ∧
      (sanitizeClean v).length ≤ 200 ∧
      hasMaliciousPattern (sanitizeClean v) = false ∧
      hasExcessiveRepetition (sanitizeClean v) = false := by
  simp only [validate_input_phrase] at h
  split at h
  · cases h
  split at h
  · cases h
  split at h
  · cases h
  split at h
  · cases h
  split at h
  · cases h
  rename_i h1 h2 h3 h4 h5
  injection h with h
  refine ⟨h.symm, ?_, Nat.le_of_not_lt h3, ?_, ?_⟩
  · intro hnil
    exact h2 (by simp [hnil])
  · exact Bool.eq_false_iff.mpr h4
  · exact Bool.eq_false_iff.mpr h5

theorem validate_ok_intro {s : List Char} (hne : s ≠ [])
    (hhead : headNotSpace s = true) (hclean : sanitizeClean s = s)
    (hlen : s.length ≤ 200) (hmal : hasMaliciousPattern s = false)
    (hrep : hasExcessiveRepetition s = false) :
    validate_input_phrase s = .ok s := by
  have hempty : s.isEmpty = false := by
    cases s with
    | nil => exact absurd rfl hne
    | cons c rest => rfl
  have hall : s.all pyIsSpace = false := all_pyIsSpace_eq_false hne hhead
  have hlen0 : ¬((s.length == 0) = true) := by
    simp only [beq_iff_eq, List.length_eq_zero]
    exact hne
  simp only [validate_input_phrase, hclean, hempty, hall]
  rw [if_neg (by simp), if_neg hlen0, if_neg (Nat.not_lt.mpr hlen),
    if_neg (by simp [hmal]), if_neg (by simp [hrep])]

theorem validate_fails_of_bad {v : List Char}
    (h : hasMaliciousPattern (sanitizeClean v) = true ∨
         hasExcessiveRepetition (sanitizeClean v) = true) :
    ∃ e, validate_input_phrase v = .error e := by
  by_cases hok : ∃ s, validate_input_phrase v = .ok s
  · obtain ⟨s, hs⟩ := hok
    obtain ⟨_, _, _, hmal, hrep⟩ := validate_ok_elim hs
    rcases h with h | h
    · rw [hmal] at h; cases h
    · rw [hrep] at h; cases h
  · cases hv : validate_input_phrase v with
    | error e => exact ⟨e, rfl⟩
    | ok s => exact absurd ⟨s, hv⟩ hok

/-! ## Claim theorems: the input sanitizer -/

/-- C5: the sanitizer is idempotent on its accepted outputs — if
`validate_input_phrase` accepts `x` producing sanitized `s`, then feeding
`s` back through `validate_input_phrase` succeeds and returns `s`
unchanged. -/
theorem c5_sanitizer_idempotent {x s : List Char}
    (h : validate_input_phrase x = .ok s) :
    validate_input_phrase s = .ok s := by
  obtain ⟨hs, hne, hlen, hmal, hrep⟩ := validate_ok_elim h
  subst hs
  exact validate_ok_intro hne (headNotSpace_sanitizeClean x)
    (sanitizeClean_idem x) hlen hmal hrep

theorem c5_witness :
    validate_input_phrase ("hello   world".toList) = .ok ("hello world".toList) ∧
    validate_input_phrase ("hello world".toList) = .ok ("hello world".toList) :=
  ⟨by rfl, c5_sanitizer_idempotent (x := "hello   world".toList) (by rfl)⟩

/-- C6: every accepted input sanitizes to a phrase of length 1..200 with
no ASCII control characters (0x00-0x1F, 0x7F-0x9F), every whitespace run
collapsed to a single space, and no leading or trailing whitespace. -/
theorem c6_sanitized_shape {v s : List Char}
    (h : validate_input_phrase v = .ok s) :
    1 ≤ s.length ∧ s.length ≤ 200 ∧ noControl s = true ∧
      wellSpaced s = true ∧ headNotSpace s = true ∧ lastNotSpace s = true := by
  obtain ⟨hs, hne, hlen, _, _⟩ := validate_ok_elim h
  subst hs
  refine ⟨?_, hlen, noControl_sanitizeClean v, wellSpaced_sanitizeClean v,
    headNotSpace_sanitizeClean v, lastNotSpace_sanitizeClean v⟩
  exact Nat.one_le_iff_ne_zero.mpr (fun h0 => hne (List.length_eq_zero.mp h0))

theorem c6_witness :
    validate_input_phrase (" The  cat ".toList) = .ok ("The cat".toList) ∧
    (1 ≤ ("The cat".toList).length ∧ ("The cat".toList).length ≤ 200 ∧
      noControl ("The cat".toList) = true ∧
      wellSpaced ("The cat".toList) = true ∧
      headNotSpace ("The cat".toList) = true ∧
      lastNotSpace ("The cat".toList) = true) :=
  ⟨by rfl, c6_sanitized_shape (v := " The  cat ".toList) (by rfl)⟩

/-- C7: an input whose sanitized form matches one of the injection
denylist patterns or contains a block of length at least 10 repeated at
least 4 times consecutively is rejected with a `ValidationError`; no
sanitized value is returned. -/
theorem c7_denylist_rejection {v : List Char}
    (h : hasMaliciousPattern (sanitizeClean v) = true ∨
         hasExcessiveRepetition (sanitizeClean v) = true) :
    ∃ e, validate_input_phrase v = .error e :=
  validate_fails_of_bad h

theorem c7_witness :
    (hasMaliciousPattern (sanitizeClean ("<script>alert(1)</script>".toList)) = true ∨
      hasExcessiveRepetition (sanitizeClean ("<script>alert(1)</script>".toList)) = true) ∧
    (∃ e, validate_input_phrase ("<script>alert(1)</script>".toList) = .error e) :=
  ⟨Or.inl (by rfl),
    c7_denylist_rejection (v := "<script>alert(1)</script>".toList) (Or.inl (by rfl))⟩

/-- C10: any input whose sanitized form contains the substring `data:`
anywhere, case-insensitively, is rejected as potentially malicious — the
denylist is matched as unanchored substrings. -/
theorem c10_data_substring_rejected {v : List Char}
    (h : isSubstrOf dataPat (toLowerStr (sanitizeClean v)) = true) :
    ∃ e, validate_input_phrase v = .error e := by
  apply validate_fails_of_bad
  left
  unfold hasMaliciousPattern
  simp [h]

theorem c10_witness :
    isSubstrOf dataPat (toLowerStr (sanitizeClean ("metadata: none".toList))) = true ∧
    (∃ e, validate_input_phrase ("metadata: none".toList) = .error e) :=
  ⟨by rfl, c10_data_substring_rejected (v := "metadata: none".toList) (by rfl)⟩

/-! ## Lemmas about the model lifecycle -/

theorem both_some_of_not_guard {st : ModelState}
    (hg : ¬((st.model.isNone || st.tokenizer.isNone) = true)) :
    st.model.isSome = true ∧ st.tokenizer.isSome = true := by
  cases hm : st.model with
  | none => exact absurd (by simp [hm]) hg
  | some m =>
    cases ht : st.tokenizer with
    | none => exact absurd (by simp [ht]) hg
    | some t => simp [hm, ht]

theorem load_mt_inv (env : LoadEnv) (st : ModelState)
    (h : st.model.isSome = true → st.tokenizer.isSome = true) :
    (load_model_and_tokenizer env st).1.model.isSome = true →
    (load_model_and_tokenizer env st).1.tokenizer.isSome = true := by
  unfold load_model_and_tokenizer
  by_cases hg : (st.model.isNone || st.tokenizer.isNone) = true
  · rw [if_pos hg]
    cases env.tokenizerResult with
    | none => exact h
    | some tok =>
      cases env.modelResult with
      | none => intro _; rfl
      | some m => intro _; rfl
  · rw [if_neg hg]; exact h

theorem load_mt_none (env : LoadEnv) (st : ModelState) :
    (load_model_and_tokenizer env st).2 = none →
    (load_model_and_tokenizer env st).1.model.isSome = true ∧
    (load_model_and_tokenizer env st).1.tokenizer.isSome = true := by
  unfold load_model_and_tokenizer
  by_cases hg : (st.model.isNone || st.tokenizer.isNone) = true
  · rw [if_pos hg]
    cases env.tokenizerResult with
    | none => simp
    | some tok =>
      cases env.modelResult with
      | none => simp
      | some m => intro _; exact ⟨rfl, rfl⟩
  · rw [if_neg hg]
    intro _
    exact both_some_of_not_guard hg

/-! ## Claim theorems: the model lifecycle -/

/-- C1 (counterexample): a load attempt from the initial state in which
the tokenizer fetch succeeds and the model fetch fails leaves the
tokenizer handle set while the model handle is absent, refuting the
both-set-or-both-absent invariant. -/
theorem c1_counterexample :
    ((load_model_and_tokenizer ⟨"HuggingFaceTB/SmolLM2-1.7B", some 0, none⟩
        initialModelState).1.tokenizer.isSome = true) ∧
    ((load_model_and_tokenizer ⟨"HuggingFaceTB/SmolLM2-1.7B", some 0, none⟩
        initialModelState).1.model.isSome = false) :=
  ⟨rfl, rfl⟩

/-- C1 (amended): the lifecycle operations preserve the one-sided
invariant that the model handle is set only if the tokenizer handle is
set, and a load that reports no error (for the endpoint: the `success`
payload) leaves both handles set; a failed load attempt, however, may
leave the tokenizer set while the model is absent. -/
theorem c1_amended_one_sided_invariant (env : LoadEnv) (st : ModelState)
    (h : st.model.isSome = true → st.tokenizer.isSome = true) :
    (((load_model_and_tokenizer env st).1.model.isSome = true →
        (load_model_and_tokenizer env st).1.tokenizer.isSome = true) ∧
      ((load_model_and_tokenizer env st).2 = none →
        (load_model_and_tokenizer env st).1.model.isSome = true ∧
        (load_model_and_tokenizer env st).1.tokenizer.isSome = true)) ∧
    (((ensure_model_loaded env st).1.model.isSome = true →
        (ensure_model_loaded env st).1.tokenizer.isSome = true) ∧
      ((ensure_model_loaded env st).2 = none →
        (ensure_model_loaded env st).1.model.isSome = true →
        (ensure_model_loaded env st).1.tokenizer.isSome = true)) ∧
    (((load_model env st).1.model.isSome = true →
        (load_model env st).1.tokenizer.isSome = true) ∧
      ((load_model env st).2 = .ok .success →
        (load_model env st).1.model.isSome = true ∧
        (load_model env st).1.tokenizer.isSome = true)) := by
  refine ⟨⟨load_mt_inv env st h, load_mt_none env st⟩, ⟨?_, ?_⟩, ⟨?_, ?_⟩⟩
  · unfold ensure_model_loaded
    by_cases hg : (st.model.isNone || st.tokenizer.isNone) = true
    · rw [if_pos hg]; exact load_mt_inv env st h
    · rw [if_neg hg]; exact h
  · unfold ensure_model_loaded
    by_cases hg : (st.model.isNone || st.tokenizer.isNone) = true
    · rw [if_pos hg]; intro hnone _; exact (load_mt_none env st hnone).2
    · rw [if_neg hg]; intro _ _; exact (both_some_of_not_guard hg).2
  · unfold load_model
    by_cases h1 : (st.model_loading_status == .loading) = true
    · rw [if_pos h1]; exact h
    · rw [if_neg h1]
      by_cases h2 : (st.model_loading_status == .loaded) = true
      · rw [if_pos h2]; exact h
      · rw [if_neg h2]
        cases hres : load_model_and_tokenizer env st with
        | mk st2 e =>
          have hinv := load_mt_inv env st h
          rw [hres] at hinv
          cases e with
          | none => exact hinv
          | some err => exact hinv
  · unfold load_model
    by_cases h1 : (st.model_loading_status == .loading) = true
    · rw [if_pos h1]; intro hsucc; simp at hsucc
    · rw [if_neg h1]
      by_cases h2 : (st.model_loading_status == .loaded) = true
      · rw [if_pos h2]; intro hsucc; simp at hsucc
      · rw [if_neg h2]
        cases hres : load_model_and_tokenizer env st with
        | mk st2 e =>
          have hnone := load_mt_none env st
          rw [hres] at hnone
          cases e with
          | none => intro _; exact hnone rfl
          | some err => intro hsucc; simp at hsucc

theorem c1_amended_witness :
    ((initialModelState.model.isSome = true →
        initialModelState.tokenizer.isSome = true) ∧
      True) ∧
    ((load_model_and_tokenizer ⟨"HuggingFaceTB/SmolLM-135M", some 0, some 1⟩
        initialModelState).2 = none →
      (load_model_and_tokenizer ⟨"HuggingFaceTB/SmolLM-135M", some 0, some 1⟩
        initialModelState).1.model.isSome = true ∧
      (load_model_and_tokenizer ⟨"HuggingFaceTB/SmolLM-135M", some 0, some 1⟩
        initialModelState).1.tokenizer.isSome = true) :=
  ⟨⟨by decide, trivial⟩,
    ((c1_amended_one_sided_invariant ⟨"HuggingFaceTB/SmolLM-135M", some 0, some 1⟩
      initialModelState (by decide)).1).2⟩

/-- C9: the `POST /api/model/load` handler never raises past its
boundary: for every state and load outcome it returns (as a 200 payload)
exactly one of `already_loading`, `already_loaded`, `success`, or
`error` with a message. -/
theorem c9_load_endpoint_total (env : LoadEnv) (st : ModelState) :
    ∃ r, (load_model env st).2 = .ok r ∧
      (r = .already_loading ∨ r = .already_loaded ∨ r = .success ∨
        ∃ m, r = .error_payload m) := by
  unfold load_model
  by_cases h1 : (st.model_loading_status == .loading) = true
  · rw [if_pos h1]; exact ⟨.already_loading, rfl, Or.inl rfl⟩
  · rw [if_neg h1]
    by_cases h2 : (st.model_loading_status == .loaded) = true
    · rw [if_pos h2]; exact ⟨.already_loaded, rfl, Or.inr (Or.inl rfl)⟩
    · rw [if_neg h2]
      cases hres : load_model_and_tokenizer env st with
      | mk st2 e =>
        cases e with
        | none => exact ⟨.success, rfl, Or.inr (Or.inr (Or.inl rfl))⟩
        | some err =>
          exact ⟨.error_payload ("Failed to load model: " ++ err.detail), rfl,
            Or.inr (Or.inr (Or.inr ⟨_, rfl⟩))⟩

/-! ## Lemmas about the prediction engine -/

theorem decodeCandidate_some_elim {decode : Nat → Option (List Char)}
    {c : Candidate} {p : PredictionResult}
    (h : decodeCandidate decode c = some p) :
    p.probability = c.probability ∧ is_valid_token p.word = true := by
  simp only [decodeCandidate] at h
  split at h
  · cases h
  · split at h
    · rename_i hv
      injection h with h
      rw [← h]
      exact ⟨rfl, hv⟩
    · cases h

theorem predict_ok_elim {env : InferenceEnv} {payload : PredictPayload}
    {resp : PredictionResponse}
    (h : predict_next_word env payload = .ok resp) :
    ∃ ids cands,
      env.encode (pyStrip payload.input_phrase) = some ids ∧
      ids.length ≤ 100 ∧
      env.topk ids payload.top_k_tokens = some cands ∧
      resp.predictions = formatPredictions env.decode cands ∧
      resp.predictions ≠ [] ∧
      resp.input_phrase = pyStrip payload.input_phrase ∧
      (∀ (hne : resp.predictions ≠ []),
        resp.complete_sentence =
          pyStrip (resp.input_phrase ++ ' ' :: (resp.predictions.head hne).word)) := by
  simp only [predict_next_word] at h
  split at h
  · cases h
  rename_i ids henc
  split at h
  · cases h
  rename_i hlen
  split at h
  · cases h
  rename_i cands htk
  split at h
  · cases h
  rename_i hne
  injection h with h
  subst h
  refine ⟨ids, cands, henc, Nat.le_of_not_lt hlen, htk, rfl, hne, rfl, ?_⟩
  intro _
  rfl

/-! ## Claim theorems: the prediction engine -/

/-- C2: given the `torch.topk` contract that it returns exactly
`top_k_tokens` candidates, every successful prediction response carries
between 1 and `top_k_tokens` predictions; and if every candidate is
dropped by decoding or filtering (after encoding and inference succeed),
the request fails with the 500 no-valid-predictions error instead of
returning an empty success. -/
theorem c2_cardinality (env : InferenceEnv) (payload : PredictPayload)
    (hk : ∀ ids cands, env.topk ids payload.top_k_tokens = some cands →
      cands.length = payload.top_k_tokens) :
    (∀ resp, predict_next_word env payload = .ok resp →
      1 ≤ resp.predictions.length ∧
      resp.predictions.length ≤ payload.top_k_tokens) ∧
    (∀ ids cands, env.encode (pyStrip payload.input_phrase) = some ids →
      ids.length ≤ 100 →
      env.topk ids payload.top_k_tokens = some cands →
      formatPredictions env.decode cands = [] →
      predict_next_word env payload = .error ⟨500, noValidDetail⟩) := by
  constructor
  · intro resp h
    obtain ⟨ids, cands, _, _, htk, hpred, hne, _, _⟩ := predict_ok_elim h
    constructor
    · exact Nat.one_le_iff_ne_zero.mpr
        (fun h0 => hne (List.length_eq_zero.mp h0))
    · rw [hpred, formatPredictions, ← hk ids cands htk]
      exact List.length_filterMap_le _ _
  · intro ids cands henc hlen htk hempty
    simp only [predict_next_word]
    split
    · rename_i heq; rw [henc] at heq; cases heq
    rename_i ids' heq
    rw [henc] at heq
    injection heq with heq
    subst heq
    rw [if_neg (Nat.not_lt.mpr hlen)]
    split
    · rename_i heq2; rw [htk] at heq2; cases heq2
    rename_i cands' heq2
    rw [htk] at heq2
    injection heq2 with heq2
    subst heq2
    rw [dif_pos hempty]

/-- C3: given the `torch.topk` contract that its candidates come sorted
by descending probability, every successful response's predictions are
ordered descending by probability: consecutive entries never increase. -/
theorem c3_ranking (env : InferenceEnv) (payload : PredictPayload)
    (hsorted : ∀ ids cands, env.topk ids payload.top_k_tokens = some cands →
      cands.Pairwise (fun a b => b.probability ≤ a.probability)) :
    ∀ resp, predict_next_word env payload = .ok resp →
      ∀ i (hi : i + 1 < resp.predictions.length),
        (resp.predictions.get ⟨i + 1, hi⟩).probability ≤
        (resp.predictions.get ⟨i, Nat.lt_of_succ_lt hi⟩).probability := by
  intro resp h i hi
  obtain ⟨ids, cands, _, _, htk, hpred, _, _, _⟩ := predict_ok_elim h
  have hp : resp.predictions.Pairwise
      (fun p q => q.probability ≤ p.probability) := by
    rw [hpred, formatPredictions]
    refine List.pairwise_filterMap.mpr ?_
    refine (hsorted ids cands htk).imp ?_
    intro a b hab x hx y hy
    rw [(decodeCandidate_some_elim hx).1, (decodeCandidate_some_elim hy).1]
    exact hab
  have := List.pairwise_iff_getElem.mp hp i (i + 1)
    (Nat.lt_of_succ_lt hi) hi (Nat.lt_succ_self i)
  exact this

/-- C4: every successful response's complete sentence is the sanitized
input phrase, a space, and the first prediction's word, stripped — i.e.
`complete_sentence = (input_phrase + " " + predictions[0].word).strip()`. -/
theorem c4_complete_sentence (env : InferenceEnv) (payload : PredictPayload)
    (resp : PredictionResponse)
    (h : predict_next_word env payload = .ok resp) :
    ∀ best rest, resp.predictions = best :: rest →
      resp.complete_sentence =
        pyStrip (resp.input_phrase ++ [' '] ++ best.word) := by
  intro best rest hbr
  obtain ⟨ids, cands, _, _, _, _, hne, _, hcs⟩ := predict_ok_elim h
  have hhead : resp.predictions.head hne = best := by
    have h1 : resp.predictions.head? = some best := by rw [hbr]; rfl
    rw [List.head?_eq_head hne] at h1
    injection h1
  rw [hcs hne, hhead, List.append_assoc, List.singleton_append]

/-- C8: no word in a successful response's predictions is empty, longer
than 50 characters, made solely of denylisted punctuation characters, or
an ellipsis-style token (two or more dots, spaced-dot patterns, the
literal `...` or `…`): every such decoded candidate is dropped before the
response is assembled. -/
theorem c8_no_junk_tokens (env : InferenceEnv) (payload : PredictPayload)
    (resp : PredictionResponse)
    (h : predict_next_word env payload = .ok resp) :
    ∀ p ∈ resp.predictions,
      p.word ≠ [] ∧ p.word.length ≤ 50 ∧
      punctOnlyToken p.word = false ∧ multiDotToken p.word = false ∧
      spacedEllipsisToken p.word = false ∧ repSpacedDotsToken p.word = false ∧
      pyStrip p.word ≠ tripleDotLiteral ∧ pyStrip p.word ≠ unicodeEllipsis := by
  intro p hp
  obtain ⟨ids, cands, _, _, _, hpred, _, _, _⟩ := predict_ok_elim h
  rw [hpred, formatPredictions] at hp
  obtain ⟨c, _, hdec⟩ := List.mem_filterMap.mp hp
  have hv := (decodeCandidate_some_elim hdec).2
  simp only [is_valid_token, Bool.and_eq_true, Bool.not_eq_true',
    decide_eq_true_eq, beq_eq_false_iff_ne, ne_eq] at hv
  obtain ⟨⟨⟨⟨⟨⟨⟨⟨hne', hpos⟩, hlen⟩, hpunct⟩, hdot⟩, hsp⟩, hrep⟩, htriple⟩, huni⟩ := hv
  refine ⟨?_, hlen, hpunct, hdot, hsp, hrep, htriple, huni⟩
  intro h0
  rw [h0] at hne'
  simp at hne'

theorem c2_witness :
    1 ≤ testResp.predictions.length ∧
    testResp.predictions.length ≤ testPayload.top_k_tokens :=
  (c2_cardinality testEnv testPayload
      (fun ids cands h => by injection h with h; rw [← h]; rfl)).1
    testResp (by rfl)

theorem c3_witness :
    (testResp.predictions.get ⟨0 + 1, by decide⟩).probability ≤
    (testResp.predictions.get ⟨0, by decide⟩).probability :=
  c3_ranking testEnv testPayload
    (fun ids cands h => by injection h with h; rw [← h]; norm_num [List.pairwise_cons])
    testResp (by rfl) 0 (by decide)

theorem c4_witness :
    testResp.complete_sentence =
      pyStrip (testResp.input_phrase ++ [' '] ++
        (⟨"Paris".toList, (1 : Rat)/2, 5⟩ : PredictionResult).word) :=
  c4_complete_sentence testEnv testPayload testResp (by rfl)
    ⟨"Paris".toList, (1 : Rat)/2, 5⟩ [⟨"the".toList, (1 : Rat)/8, 9⟩] (by rfl)

theorem c8_witness :
    (⟨"Paris".toList, (1 : Rat)/2, 5⟩ : PredictionResult).word ≠ [] ∧
    (⟨"Paris".toList, (1 : Rat)/2, 5⟩ : PredictionResult).word.length ≤ 50 ∧
    punctOnlyToken (⟨"Paris".toList, (1 : Rat)/2, 5⟩ : PredictionResult).word = false ∧
    multiDotToken (⟨"Paris".toList, (1 : Rat)/2, 5⟩ : PredictionResult).word = false ∧
    spacedEllipsisToken (⟨"Paris".toList, (1 : Rat)/2, 5⟩ : PredictionResult).word = false ∧
    repSpacedDotsToken (⟨"Paris".toList, (1 : Rat)/2, 5⟩ : PredictionResult).word = false ∧
    pyStrip (⟨"Paris".toList, (1 : Rat)/2, 5⟩ : PredictionResult).word ≠ tripleDotLiteral ∧
    pyStrip (⟨"Paris".toList, (1 : Rat)/2, 5⟩ : PredictionResult).word ≠ unicodeEllipsis :=
  c8_no_junk_tokens testEnv testPayload testResp (by rfl)
    ⟨"Paris".toList, (1 : Rat)/2, 5⟩ (by simp [testResp])

end HowAIWorks
